import Mathlib

/-!
# Verification of the CCIP bridge demo's transfer lifecycle logic

Shallow embedding of the transfer lifecycle state machine of the
`ccip-sdk-bazaar-demo` browser application, together with theorems settling
the specification claims about it.

The definitions below are translated from the TypeScript sources:
* `src/hooks/useMessageStatus.ts` (status mapping, retry policy, polling
  backoff, timeout handling),
* `src/utils/timeout.ts` (polling configuration, elapsed-time formatting),
* `src/hooks/useTransactionExecution.ts` (EVM executor flow),
* `src/config/ccipMessage.ts` (transfer-request builder),
* `src/utils/localStorage.ts` (history log),
* `src/hooks/TransactionHistoryContext.tsx` (background reconciliation),
* `src/hooks/useTokenPoolInfo.ts` (rate-limit formatting).
-/

/-! ## Status domain (SDK `MessageStatus` and the app's two status types) -/

/-- The SDK's fine-grained message status enumeration (`MessageStatus` from
`@chainlink/ccip-sdk`), as consumed by `useMessageStatus.ts`. -/
inductive MessageStatus
  | Unknown
  | Sent
  | SourceFinalized
  | Committed
  | Blessed
  | Verifying
  | Verified
  | Success
  | Failed
deriving DecidableEq

/-- Embedding of `DetailedMessageStatus` from `src/hooks/useMessageStatus.ts`. -/
inductive DetailedMessageStatus
  | UNKNOWN
  | SENT
  | SOURCE_FINALIZED
  | COMMITTED
  | BLESSED
  | VERIFYING
  | VERIFIED
  | SUCCESS
  | FAILED
deriving DecidableEq

/-- Embedding of `MessageState` (simplified, user-facing) from `src/hooks/useMessageStatus.ts`. -/
inductive MessageState
  | SENT
  | COMMITTED
  | SUCCESS
  | FAILED
  | UNKNOWN
deriving DecidableEq

/-- Embedding of `mapToDetailedStatus` from `src/hooks/useMessageStatus.ts` (lines 59-82):
a `switch` over the SDK status with a `default: return 'UNKNOWN'` branch. -/
def mapToDetailedStatus : MessageStatus → DetailedMessageStatus
  | .Sent => .SENT
  | .SourceFinalized => .SOURCE_FINALIZED
  | .Committed => .COMMITTED
  | .Blessed => .BLESSED
  | .Verifying => .VERIFYING
  | .Verified => .VERIFIED
  | .Success => .SUCCESS
  | .Failed => .FAILED
  | .Unknown => .UNKNOWN

/-- Embedding of `mapToSimplifiedState` from `src/hooks/useMessageStatus.ts` (lines 87-104). -/
def mapToSimplifiedState : DetailedMessageStatus → MessageState
  | .SENT => .SENT
  | .SOURCE_FINALIZED => .SENT
  | .COMMITTED => .COMMITTED
  | .BLESSED => .COMMITTED
  | .VERIFYING => .COMMITTED
  | .VERIFIED => .COMMITTED
  | .SUCCESS => .SUCCESS
  | .FAILED => .FAILED
  | .UNKNOWN => .UNKNOWN

/-- The status extraction in the query function of `useMessageStatus.ts`
(line 275): `message.metadata?.status ?? MessageStatus.Unknown`, i.e. an
absent status defaults to `Unknown`. -/
def statusFromMetadata (status : Option MessageStatus) : MessageStatus :=
  status.getD .Unknown

/-- The end-to-end mapping from an (optional) SDK status to the simplified
user-facing state, exactly as composed by `useMessageStatus.ts`. -/
def simplifiedOfRawStatus (status : Option MessageStatus) : MessageState :=
  mapToSimplifiedState (mapToDetailedStatus (statusFromMetadata status))

/-! ## Retry policy (`retry` option of the status query) -/

/-- The error classes distinguished by the `retry` callback in
`src/hooks/useMessageStatus.ts` (lines 289-302): `CCIPMessageIdNotFoundError`,
a `CCIPError` with its `isTransient` flag, and anything else. -/
inductive PollErrorKind
  | messageIdNotFound
  | ccipError (isTransient : Bool)
  | otherError
deriving DecidableEq

/-- The `retry` callback of the status query in `useMessageStatus.ts`
(lines 289-302), as a pure function of the failure count and error class. -/
def retryDecision (failureCount : Nat) (e : PollErrorKind) : Bool :=
  match e with
  | .messageIdNotFound => failureCount < 20
  | .ccipError isTransient =>
      if isTransient then failureCount < 10 else failureCount < 3
  | .otherError => failureCount < 3

/-- The `retryDelay` callback of the status query in `useMessageStatus.ts`
(lines 305-315): an SDK-suggested delay when present, else exponential
backoff `min(1000 * 2 ^ attemptIndex, 30000)`. -/
def retryDelayMs (attemptIndex : Nat) (sdkDelay : Option Nat) : Nat :=
  match sdkDelay with
  | some d => d
  | none => min (1000 * 2 ^ attemptIndex) 30000

/-! ## Polling cadence (`DEFAULT_POLLING_CONFIG` and the `refetchInterval`) -/

/-- Embedding of `PollingConfig` from `src/utils/timeout.ts`. -/
structure PollingConfig where
  initialDelay : Nat
  maxDelay : Nat
  delayIncrement : Nat
  maxTotalTime : Nat
deriving DecidableEq

/-- Embedding of `DEFAULT_POLLING_CONFIG` from `src/utils/timeout.ts`:
10s initial delay, +5s per poll, 30s cap, 35 minutes total. -/
def DEFAULT_POLLING_CONFIG : PollingConfig :=
  { initialDelay := 10000
    maxDelay := 30000
    delayIncrement := 5000
    maxTotalTime := 35 * 60000 }

/-- The polling delay computed both by the `refetchInterval` callback in
`useMessageStatus.ts` (lines 329-334) and by `createPollingManager.wait` in
`src/utils/timeout.ts`:
`Math.min(initialDelay + pollCount * delayIncrement, maxDelay)`. -/
def pollDelay (pollCount : Nat) : Nat :=
  min (DEFAULT_POLLING_CONFIG.initialDelay +
        pollCount * DEFAULT_POLLING_CONFIG.delayIncrement)
      DEFAULT_POLLING_CONFIG.maxDelay

/-! ## Status tracking session (`useMessageStatus`) -/

/-- The data produced by one successful status query in `useMessageStatus.ts`
(lines 277-282), without the redundant `rawStatus` echo. -/
structure StatusQueryData where
  detailedStatus : DetailedMessageStatus
  sourceTxHash : Option String
  destTxHash : Option String
deriving DecidableEq

/-- The state of one tracking session of `useMessageStatus`: the `messageId`
argument, the `startTimeRef`/`pollCountRef` refs, the `isTimedOut`,
`elapsedTime` and `manualStop` state variables, and the last query `data`. -/
structure PollSession where
  messageId : Option String
  startTime : Option Nat
  pollCount : Nat
  isTimedOut : Bool
  manualStop : Bool
  elapsedTime : String
  data : Option StatusQueryData
deriving DecidableEq

/-- Embedding of `TIMEOUT_DEFAULTS.MESSAGE_POLLING` from `src/utils/timeout.ts`:
35 minutes in milliseconds. -/
def MESSAGE_POLLING_TIMEOUT : Nat := 35 * 60 * 1000

/-- Embedding of `formatElapsedTime` from `src/utils/timeout.ts`. -/
def formatElapsedTime (ms : Nat) : String :=
  if ms < 1000 then "just now"
  else if ms < 60000 then toString (ms / 1000) ++ "s"
  else
    let minutes := ms / 60000
    let seconds := (ms % 60000) / 1000
    if seconds = 0 then toString minutes ++ "m"
    else toString minutes ++ "m " ++ toString seconds ++ "s"

/-- One firing of the 1-second elapsed-time interval in `useMessageStatus.ts`
(lines 217-227): when a start time is set, it formats the elapsed time and
sets `isTimedOut` once `elapsed >= TIMEOUT_DEFAULTS.MESSAGE_POLLING`. -/
def elapsedTick (s : PollSession) (now : Nat) : PollSession :=
  match s.startTime with
  | none => s
  | some t0 =>
      let elapsed := now - t0
      let s1 := { s with elapsedTime := formatElapsedTime elapsed }
      if MESSAGE_POLLING_TIMEOUT ≤ elapsed then { s1 with isTimedOut := true }
      else s1

/-- The `enabled` option of the status query in `useMessageStatus.ts`
(line 286): `!!messageId && !isTimedOut && !manualStop`. -/
def queryEnabled (s : PollSession) : Bool :=
  s.messageId.isSome && !s.isTimedOut && !s.manualStop

/-- The `refetchInterval` callback in `useMessageStatus.ts` (lines 318-337):
`none` models returning `false` (no further poll), `some d` models returning
a delay of `d` milliseconds. -/
def refetchInterval (s : PollSession) : Option Nat :=
  if s.messageId.isNone || s.isTimedOut || s.manualStop then none
  else
    match s.data with
    | some d =>
        if d.detailedStatus = .SUCCESS || d.detailedStatus = .FAILED then none
        else some (pollDelay s.pollCount)
    | none => some (pollDelay s.pollCount)

/-- The simplified state derived from the session in `useMessageStatus.ts`
(lines 350-351): `mapToSimplifiedState(data?.detailedStatus ?? 'UNKNOWN')`.
It is a function of the query data only. -/
def sessionState (s : PollSession) : MessageState :=
  mapToSimplifiedState ((s.data.map (·.detailedStatus)).getD .UNKNOWN)

/-! ## Transfer request builder (`buildCCIPMessage`) -/

/-- Embedding of `CCIPTokenAmount` from `src/config/ccipMessage.ts`; `amount` is a
TypeScript `bigint`, embedded as `Int`. -/
structure CCIPTokenAmount where
  token : String
  amount : Int
deriving DecidableEq

/-- The `extraArgs` field of `CCIPMessage`. -/
structure CCIPExtraArgs where
  gasLimit : Int
deriving DecidableEq

/-- Embedding of `CCIPMessage` from `src/config/ccipMessage.ts`. -/
structure CCIPMessage where
  receiver : String
  data : String
  tokenAmounts : List CCIPTokenAmount
  extraArgs : CCIPExtraArgs
deriving DecidableEq

/-- Embedding of `buildCCIPMessage` from `src/config/ccipMessage.ts` (lines 168-187): a
plain object construction with defaults `data = '0x'` and `gasLimit = 0n`.
The source body is a single `return` of an object literal: it contains no
validation and no `throw`, so the embedding is a total function. -/
def buildCCIPMessage (receiver tokenAddress : String) (amount : Int)
    (data : String := "0x") (gasLimit : Int := 0) : CCIPMessage :=
  { receiver := receiver
    data := data
    tokenAmounts := [{ token := tokenAddress, amount := amount }]
    extraArgs := { gasLimit := gasLimit } }

/-! ## History log (`src/utils/localStorage.ts`) -/

/-- Embedding of `TransactionStatus` from `src/utils/localStorage.ts`. -/
inductive TransactionStatus
  | pending
  | success
  | failed
  | timeout
deriving DecidableEq

/-- Embedding of `StoredTransaction` from `src/utils/localStorage.ts`; the optional
`destTxHash` is an `Option`, timestamps are epoch milliseconds. -/
structure StoredTransaction where
  messageId : String
  txHash : String
  destTxHash : Option String
  sourceNetwork : String
  destNetwork : String
  amount : String
  tokenSymbol : String
  receiver : String
  sender : String
  status : TransactionStatus
  timestamp : Nat
  lastChecked : Nat
deriving DecidableEq

/-- Embedding of `MAX_TRANSACTIONS` from `src/utils/localStorage.ts`. -/
def MAX_TRANSACTIONS : Nat := 50

/-- Embedding of `saveTransactions` from `src/utils/localStorage.ts` (lines 122-144):
the persisted list is `transactions.slice(0, MAX_TRANSACTIONS)` (the
quota-exceeded fallback path is not modelled). -/
def saveTransactions (transactions : List StoredTransaction) :
    List StoredTransaction :=
  transactions.take MAX_TRANSACTIONS

/-- The argument of `addTransaction`:
`Omit<StoredTransaction, 'timestamp' | 'lastChecked'>`. A `none` in
`destTxHash` models the property being absent from the object, so a spread
of it leaves an existing value in place. -/
structure NewTransaction where
  messageId : String
  txHash : String
  destTxHash : Option String
  sourceNetwork : String
  destNetwork : String
  amount : String
  tokenSymbol : String
  receiver : String
  sender : String
  status : TransactionStatus
deriving DecidableEq

/-- The update `{ ...existing, ...transaction, lastChecked: Date.now() }`
performed by `addTransaction` on the record found at the existing index:
every input field overwrites the stored one, the original `timestamp` is
kept, `lastChecked` is set to now. -/
def mergeTransaction (existing : StoredTransaction) (input : NewTransaction)
    (now : Nat) : StoredTransaction :=
  { messageId := input.messageId
    txHash := input.txHash
    destTxHash := match input.destTxHash with
                  | some v => some v
                  | none => existing.destTxHash
    sourceNetwork := input.sourceNetwork
    destNetwork := input.destNetwork
    amount := input.amount
    tokenSymbol := input.tokenSymbol
    receiver := input.receiver
    sender := input.sender
    status := input.status
    timestamp := existing.timestamp
    lastChecked := now }

/-- The `findIndex`-and-replace step of `addTransaction`
(`src/utils/localStorage.ts` lines 155-163), written as a structural
recursion: replace the first record whose `messageId` matches, or answer
`none` when no record matches. -/
def updateFirstById (input : NewTransaction) (now : Nat) :
    List StoredTransaction → Option (List StoredTransaction)
  | [] => none
  | t :: ts =>
      if t.messageId = input.messageId then
        some (mergeTransaction t input now :: ts)
      else
        (updateFirstById input now ts).map (t :: ·)

/-- The fresh record built by `addTransaction` when no record with the
message id exists (lines 165-171). -/
def newStoredTransaction (input : NewTransaction) (now : Nat) :
    StoredTransaction :=
  { messageId := input.messageId
    txHash := input.txHash
    destTxHash := input.destTxHash
    sourceNetwork := input.sourceNetwork
    destNetwork := input.destNetwork
    amount := input.amount
    tokenSymbol := input.tokenSymbol
    receiver := input.receiver
    sender := input.sender
    status := input.status
    timestamp := now
    lastChecked := now }

/-- Embedding of `addTransaction` from `src/utils/localStorage.ts` (lines 149-175): update
the first record with the same `messageId` in place, else prepend a fresh
record (`unshift`); in both cases persist through `saveTransactions`. -/
def addTransaction (input : NewTransaction) (now : Nat)
    (transactions : List StoredTransaction) : List StoredTransaction :=
  match updateFirstById input now transactions with
  | some updated => saveTransactions updated
  | none => saveTransactions (newStoredTransaction input now :: transactions)

/-- The record update performed by `updateTransactionStatus`
(`src/utils/localStorage.ts` lines 189-195): set the status, keep the old
`destTxHash` when none is supplied (`destTxHash ?? existing.destTxHash`),
bump `lastChecked`. -/
def applyStatusUpdate (t : StoredTransaction) (status : TransactionStatus)
    (destTxHash : Option String) (now : Nat) : StoredTransaction :=
  { t with
     status := status
     destTxHash := match destTxHash with
                   | some v => some v
                   | none => t.destTxHash
     lastChecked := now }

/-- The `findIndex`-and-update step of `updateTransactionStatus`
(`src/utils/localStorage.ts` lines 186-195), written as a structural
recursion: update the first record whose `messageId` matches; `none` when
no record matches. -/
def updateStatusFirstById (messageId : String) (status : TransactionStatus)
    (destTxHash : Option String) (now : Nat) :
    List StoredTransaction → Option (List StoredTransaction)
  | [] => none
  | t :: ts =>
      if t.messageId = messageId then
        some (applyStatusUpdate t status destTxHash now :: ts)
      else
        (updateStatusFirstById messageId status destTxHash now ts).map (t :: ·)

/-- Embedding of `updateTransactionStatus` from `src/utils/localStorage.ts` (lines
180-198) as a write-tracking function: `some stored` when a record with the
id exists and `saveTransactions` is invoked with the updated list, `none`
when the index lookup fails and the function returns without writing. -/
def updateTransactionStatusWrites (messageId : String)
    (status : TransactionStatus) (destTxHash : Option String) (now : Nat)
    (transactions : List StoredTransaction) :
    Option (List StoredTransaction) :=
  (updateStatusFirstById messageId status destTxHash now transactions).map
    saveTransactions

/-- The persisted list after a call to `updateTransactionStatus`: unchanged
when no write occurred. -/
def updateTransactionStatus (messageId : String) (status : TransactionStatus)
    (destTxHash : Option String) (now : Nat)
    (transactions : List StoredTransaction) : List StoredTransaction :=
  (updateTransactionStatusWrites messageId status destTxHash now
    transactions).getD transactions

/-- Embedding of `getTransaction` from `src/utils/localStorage.ts` (lines 203-206):
`transactions.find((t) => t.messageId === messageId)`. -/
def getTransaction (messageId : String)
    (transactions : List StoredTransaction) : Option StoredTransaction :=
  transactions.find? (fun t => t.messageId = messageId)

/-- Embedding of `getPendingTransactions` from `src/utils/localStorage.ts` (lines
211-214). -/
def getPendingTransactions (transactions : List StoredTransaction) :
    List StoredTransaction :=
  transactions.filter (fun t => t.status = TransactionStatus.pending)

/-- The number of stored records carrying a given message id. -/
def countById (transactions : List StoredTransaction) (messageId : String) :
    Nat :=
  transactions.countP (fun t => t.messageId = messageId)

/-! ## Background reconciliation (`TransactionHistoryContext.tsx`) -/

/-- The possible outcomes of one background status fetch for a pending
record in `pollPendingTransactions` (`TransactionHistoryContext.tsx` lines
78-105): the chain for the record's source network may be unavailable
(`getChain` returns null and the loop `continue`s), the `getMessageById`
call may throw (caught and logged only), or it resolves to a message whose
status and optional `receiptTransactionHash` are read. -/
inductive FetchOutcome
  | noChain
  | fetchError
  | ok (status : MessageStatus) (receiptTransactionHash : Option String)

/-- One iteration of the `for (const tx of pending)` loop in
`pollPendingTransactions` (`TransactionHistoryContext.tsx` lines 78-106):
map the fetched SDK status to a stored status (`success` for `Success`,
`failed` for `Failed`, else keep `pending`) and persist through
`updateTransactionStatus` only when the status changed; a thrown error or a
missing chain leaves the storage untouched and moves on. -/
def pollOne (env : String → FetchOutcome) (now : Nat)
    (storage : List StoredTransaction) (tx : StoredTransaction) :
    List StoredTransaction :=
  match env tx.messageId with
  | .noChain => storage
  | .fetchError => storage
  | .ok status receiptTransactionHash =>
      if status = .Success then
        updateTransactionStatus tx.messageId .success receiptTransactionHash
          now storage
      else if status = .Failed then
        updateTransactionStatus tx.messageId .failed receiptTransactionHash
          now storage
      else storage

/-- Embedding of `pollPendingTransactions` from `TransactionHistoryContext.tsx` (lines
74-110): snapshot the pending records once, then run the per-record loop
body sequentially over the storage. -/
def pollPendingTransactions (env : String → FetchOutcome) (now : Nat)
    (storage : List StoredTransaction) : List StoredTransaction :=
  (getPendingTransactions storage).foldl (pollOne env now) storage

/-- A concrete pending history record used to witness the reconciliation
theorem. -/
def sampleStoredTx : StoredTransaction :=
  { messageId := "0xm1", txHash := "0xt1", destTxHash := none
    sourceNetwork := "ethereum-sepolia", destNetwork := "base-sepolia"
    amount := "10", tokenSymbol := "CCIP-BnM", receiver := "0xr"
    sender := "0xs", status := .pending, timestamp := 1, lastChecked := 1 }

/-- A concrete fetch environment answering `Success` with a destination
hash for every message id. -/
def sampleEnv : String → FetchOutcome :=
  fun _ => .ok .Success (some "0xdest")

/-! ## Rate-limit display (`formatRateLimitBucket`, `useTokenPoolInfo.ts`) -/

/-- Embedding of `RateLimitBucket` from `src/hooks/useTokenPoolInfo.ts`: the SDK's
token-bucket state (`bigint` fields embedded as `Int`) plus the UI's
`isEnabled` flag. -/
structure RateLimitBucket where
  tokens : Int
  capacity : Int
  rate : Int
  isEnabled : Bool
deriving DecidableEq

/-- The numeric content of the record returned by `formatRateLimitBucket`
(`useTokenPoolInfo.ts` lines 330-335); the source renders `current`, `max`
and `rate` through `toLocaleString` for display, which does not change the
numbers. -/
structure FormattedRateLimit where
  current : Int
  max : Int
  ratePerSecond : Int
  percentage : Int
deriving DecidableEq

/-- Embedding of `formatRateLimitBucket` from `src/hooks/useTokenPoolInfo.ts` (lines
313-336). `null`/disabled buckets answer `null`. The divisor is
`BigInt(10 ** decimals)`; `bucket.tokens / divisor` is BigInt division,
which truncates toward zero (`Int.tdiv`). The percentage is
`max > 0 ? Math.round((current / max) * 100) : 0`; `Math.round` on the
(exactly representable) quotient is `round` on `ℚ`. -/
def formatRateLimitBucket (bucket : Option RateLimitBucket)
    (decimals : Nat := 18) : Option FormattedRateLimit :=
  match bucket with
  | none => none
  | some b =>
      if !b.isEnabled then none
      else
        let divisor : Int := (10 : Int) ^ decimals
        let current := b.tokens.tdiv divisor
        let maxUnits := b.capacity.tdiv divisor
        let ratePerSecond := b.rate.tdiv divisor
        let percentage : Int :=
          if 0 < maxUnits then
            round (((current : ℚ) / (maxUnits : ℚ)) * 100)
          else 0
        some { current := current, max := maxUnits
               ratePerSecond := ratePerSecond, percentage := percentage }

/-! ## EVM executor flow (`useTransactionExecution.ts`) -/

/-- The result of the SDK's `EVMChain.parse` on a thrown simulation error:
`some (errorName, signature)` when the revert data decodes to a named
protocol error (the name is the `\w+` prefix of the decoded signature, e.g.
`ChainNotAllowed` from `ChainNotAllowed(uint64 destChainSelector)`),
`none` when nothing decodes. The SDK is external; this is its interface. -/
structure DecodedRevert where
  errorName : String
  signature : String
deriving DecidableEq

/-- An error thrown by a simulated or submitted call: the SDK-decodable
revert content (if any) and the raw error message text. -/
structure SimError where
  decoded : Option DecodedRevert
  message : String
deriving DecidableEq

/-- Modelled from the spec: the `CCIP_ERROR_MESSAGES` map of
`src/utils/ccipErrors.ts` is not part of the source snapshot (only the
README's excerpt and tables are); each known protocol error name maps to a
specific user-facing sentence, per the spec's protocol-error taxonomy and
the README's error tables. -/
def CCIP_ERROR_MESSAGES (errorName : String) : Option String :=
  if errorName = "ChainNotAllowed" then some "This route is not supported"
  else if errorName = "RateLimitReached" then some "Rate limit reached"
  else if errorName = "UnsupportedToken" then some "Token not supported"
  else if errorName = "InsufficientFeeTokenAmount" then
    some "Insufficient fee"
  else if errorName = "InvalidReceiver" then
    some "Receiver address format invalid"
  else none

/-- Modelled from the spec: `parseEVMError` of `src/utils/ccipErrors.ts`
(the file itself is not in the snapshot; the README carries its
implementation excerpt): decode the error through the SDK, extract the
error name from the decoded signature, and answer the mapped user-facing
sentence, falling back to a generic message built from the decoded
signature for unknown names; answer `none` when nothing decodes. -/
def parseEVMError (e : SimError) : Option (String × String) :=
  match e.decoded with
  | none => none
  | some d =>
      some (d.errorName,
        (CCIP_ERROR_MESSAGES d.errorName).getD
          ("Transaction failed: " ++ d.signature))

/-- An unsigned transaction produced by `generateUnsignedSendMessage` for
the EVM flow (the `to`/`data` fields the executor forwards to the wallet). -/
structure UnsignedEVMTx where
  dest : String
  callData : String
deriving DecidableEq

/-- The observable wallet submissions of the EVM executor flow. -/
inductive EVMAction
  | approvalBroadcast (tx : UnsignedEVMTx)
  | sendBroadcast (tx : UnsignedEVMTx)
deriving DecidableEq

/-- The status field of the awaited receipt of the send transaction. -/
inductive ReceiptStatus
  | success
  | reverted
deriving DecidableEq

/-- The outcomes of the external calls made by one run of
`executeEVMTransfer`: the unsigned transaction list returned by
`generateUnsignedSendMessage`, whether the pre-flight `publicClient.call`
simulation threw (and with what error), the hash of the submitted send
transaction, the awaited receipt status, the error thrown by the
re-simulation at the failed block (for reverted receipts), and the
protocol messages found in the transaction. The wallet interactions for
the approval transactions are taken as succeeding: a wallet rejection
there throws before the simulation is ever reached and is outside this
flow model. -/
structure EVMEnv where
  transactions : List UnsignedEVMTx
  simOutcome : Option SimError
  sendHash : String
  receipt : ReceiptStatus
  resimOutcome : Option SimError
  messageIds : List String

/-- The result returned by `executeEVMTransfer` on the non-throwing path. -/
structure EVMTransferResult where
  messageId : Option String
  txHash : String
deriving DecidableEq

/-- Embedding of `executeEVMTransfer` from `src/hooks/useTransactionExecution.ts` (lines
107-246), as a function of the external-call outcomes, returning the list
of wallet submissions it performed and either the thrown error message or
the transfer result. The steps mirror the source: broadcast every
transaction but the last as an approval; simulate the send transaction
read-only and, when the simulation throws, abort — surfacing the parsed
CCIP error's user message when the revert decodes, re-throwing the raw
error otherwise — without ever broadcasting the send; otherwise broadcast
the send, await the receipt, re-simulate on a reverted receipt to build a
revert reason, and on success extract the first message id. -/
def executeEVMTransfer (env : EVMEnv) :
    List EVMAction × Except String EVMTransferResult :=
  match env.transactions.getLast? with
  | none =>
      ([], .error "no transactions generated")
  | some sendTx =>
      let approvalActions :=
        env.transactions.dropLast.map EVMAction.approvalBroadcast
      match env.simOutcome with
      | some simError =>
          (approvalActions,
            match parseEVMError simError with
            | some parsed => .error parsed.2
            | none => .error simError.message)
      | none =>
          let actions := approvalActions ++ [EVMAction.sendBroadcast sendTx]
          match env.receipt with
          | .reverted =>
              let revertReason :=
                match env.resimOutcome with
                | some simError =>
                    match parseEVMError simError with
                    | some parsed => parsed.2
                    | none =>
                        if simError.message ≠ "" ∧
                            simError.message ≠ "Transaction reverted" then
                          "Transaction reverted: " ++
                            (simError.message.take 300)
                        else "Transaction reverted"
                | none => "Transaction reverted"
              (actions, .error revertReason)
          | .success =>
              (actions,
                .ok { messageId := env.messageIds.head?
                      txHash := env.sendHash })

/-! ## Claims C1, C4, C5 -/

/-- C1: the status-to-simplified-state mapping is a total deterministic
function over the fine status enumeration: `Sent` and `SourceFinalized` map
to `SENT`; `Committed`, `Blessed`, `Verifying` and `Verified` map to
`COMMITTED`; `Success` maps to `SUCCESS`; `Failed` maps to `FAILED`; the
remaining (unmapped) value `Unknown`, and an absent status, map to
`UNKNOWN`. -/
theorem statusMapping_simplified_total :
    simplifiedOfRawStatus (some .Sent) = .SENT ∧
    simplifiedOfRawStatus (some .SourceFinalized) = .SENT ∧
    simplifiedOfRawStatus (some .Committed) = .COMMITTED ∧
    simplifiedOfRawStatus (some .Blessed) = .COMMITTED ∧
    simplifiedOfRawStatus (some .Verifying) = .COMMITTED ∧
    simplifiedOfRawStatus (some .Verified) = .COMMITTED ∧
    simplifiedOfRawStatus (some .Success) = .SUCCESS ∧
    simplifiedOfRawStatus (some .Failed) = .FAILED ∧
    simplifiedOfRawStatus (some .Unknown) = .UNKNOWN ∧
    simplifiedOfRawStatus none = .UNKNOWN := by
  decide

/-- C4: a status query failing with the "message not found" error class is
retried on the 1st through 19th failures (a bound of 20 attempts), after
which the retry callback answers `false` and the error is surfaced; the
decision is exactly `failureCount < 20` for that class. -/
theorem messageNotFound_retry_policy :
    ∀ failureCount : Nat,
      (1 ≤ failureCount → failureCount ≤ 19 →
        retryDecision failureCount .messageIdNotFound = true) ∧
      (20 ≤ failureCount →
        retryDecision failureCount .messageIdNotFound = false) ∧
      retryDecision failureCount .messageIdNotFound = decide (failureCount < 20) := by
  intro failureCount
  refine ⟨fun _ h2 => ?_, fun h => ?_, rfl⟩
  · simp [retryDecision]; omega
  · simp [retryDecision]; omega

/-- Witness for C4 at concrete failure counts 1, 19 and 20. -/
theorem messageNotFound_retry_witness :
    retryDecision 1 .messageIdNotFound = true ∧
    retryDecision 19 .messageIdNotFound = true ∧
    retryDecision 20 .messageIdNotFound = false :=
  ⟨(messageNotFound_retry_policy 1).1 (by decide) (by decide),
   (messageNotFound_retry_policy 19).1 (by decide) (by decide),
   (messageNotFound_retry_policy 20).2.1 (by decide)⟩

/-- C5: the computed polling delay for completed-poll count `n` equals
`min(10000 + n * 5000, 30000)`; it is non-decreasing in `n`, and once it
reaches the 30000 ms cap it stays constant at the cap. -/
theorem pollDelay_backoff_monotone_capped :
    (∀ n : Nat, pollDelay n = min (10000 + n * 5000) 30000) ∧
    (∀ n m : Nat, n ≤ m → pollDelay n ≤ pollDelay m) ∧
    (∀ n : Nat, pollDelay n = 30000 → ∀ m : Nat, n ≤ m → pollDelay m = 30000) := by
  refine ⟨fun n => rfl, fun n m h => ?_, fun n h m hm => ?_⟩
  · simp only [pollDelay, DEFAULT_POLLING_CONFIG]
    have : n * 5000 ≤ m * 5000 := Nat.mul_le_mul_right 5000 h
    omega
  · simp only [pollDelay, DEFAULT_POLLING_CONFIG] at h ⊢
    have : n * 5000 ≤ m * 5000 := Nat.mul_le_mul_right 5000 hm
    omega

/-- Witness for C5: monotonicity at 2 ≤ 3 and cap absorption from poll 4 on. -/
theorem pollDelay_backoff_witness :
    pollDelay 2 ≤ pollDelay 3 ∧ pollDelay 4 = 30000 ∧ pollDelay 7 = 30000 :=
  ⟨pollDelay_backoff_monotone_capped.2.1 2 3 (by decide),
   by decide,
   pollDelay_backoff_monotone_capped.2.2 4 (by decide) 7 (by decide)⟩

/-! ## Claims C2, C6 -/

/-- C2: once the elapsed wall-clock time since polling started reaches the
35-minute polling timeout, the interval tick sets `isTimedOut`; with
`isTimedOut` set, the status query is disabled and the `refetchInterval`
callback refuses any further poll; and the tick by itself leaves the
derived simplified status unchanged (in particular a non-`FAILED` status
does not become `FAILED`). -/
theorem pollingTimeout_halts_and_preserves_state
    (s : PollSession) (now t0 : Nat)
    (hstart : s.startTime = some t0)
    (helapsed : MESSAGE_POLLING_TIMEOUT ≤ now - t0) :
    (elapsedTick s now).isTimedOut = true ∧
    queryEnabled (elapsedTick s now) = false ∧
    refetchInterval (elapsedTick s now) = none ∧
    sessionState (elapsedTick s now) = sessionState s ∧
    (sessionState s ≠ .FAILED → sessionState (elapsedTick s now) ≠ .FAILED) := by
  have htick : (elapsedTick s now).isTimedOut = true := by
    simp only [elapsedTick, hstart]
    rw [if_pos helapsed]
  refine ⟨htick, ?_, ?_, ?_, ?_⟩
  · simp [queryEnabled, htick]
  · simp [refetchInterval, htick]
  · simp only [elapsedTick, hstart, sessionState]
    split <;> rfl
  · intro h
    simp only [elapsedTick, hstart, sessionState] at h ⊢
    split <;> exact h

/-- Witness for C2: a concrete session that started at time 0, observed at
exactly the 35-minute mark while holding a non-terminal `COMMITTED` status. -/
theorem pollingTimeout_witness :
    (elapsedTick
        { messageId := some "0xmsg", startTime := some 0, pollCount := 3
          isTimedOut := false, manualStop := false, elapsedTime := "34m 59s"
          data := some { detailedStatus := .COMMITTED, sourceTxHash := some "0xsrc"
                         destTxHash := none } }
        (35 * 60 * 1000)).isTimedOut = true ∧
    queryEnabled
      (elapsedTick
        { messageId := some "0xmsg", startTime := some 0, pollCount := 3
          isTimedOut := false, manualStop := false, elapsedTime := "34m 59s"
          data := some { detailedStatus := .COMMITTED, sourceTxHash := some "0xsrc"
                         destTxHash := none } }
        (35 * 60 * 1000)) = false ∧
    sessionState
      (elapsedTick
        { messageId := some "0xmsg", startTime := some 0, pollCount := 3
          isTimedOut := false, manualStop := false, elapsedTime := "34m 59s"
          data := some { detailedStatus := .COMMITTED, sourceTxHash := some "0xsrc"
                         destTxHash := none } }
        (35 * 60 * 1000)) =
      sessionState
        { messageId := some "0xmsg", startTime := some 0, pollCount := 3
          isTimedOut := false, manualStop := false, elapsedTime := "34m 59s"
          data := some { detailedStatus := .COMMITTED, sourceTxHash := some "0xsrc"
                         destTxHash := none } } := by
  have h := pollingTimeout_halts_and_preserves_state
    { messageId := some "0xmsg", startTime := some 0, pollCount := 3
      isTimedOut := false, manualStop := false, elapsedTime := "34m 59s"
      data := some { detailedStatus := .COMMITTED, sourceTxHash := some "0xsrc"
                     destTxHash := none } }
    (35 * 60 * 1000) 0 rfl (by decide)
  exact ⟨h.1, h.2.1, h.2.2.2.1⟩

/-- C6 counterexample: the claim states that for every negative amount the
builder signals a construction error rather than returning a
`TransferRequest`. The source performs no such check: at the concrete
negative amount `-5` it returns a fully-formed `CCIPMessage` carrying that
amount, and no error is signalled (the function has no error outcome at
all). -/
theorem buildCCIPMessage_negative_counterexample :
    buildCCIPMessage "0xReceiver" "0xToken" (-5) =
      { receiver := "0xReceiver", data := "0x"
        tokenAmounts := [{ token := "0xToken", amount := -5 }]
        extraArgs := { gasLimit := 0 } } := rfl

/-- C6 (amended): the builder is pure, deterministic and performs no I/O,
and it is total: it never fails for any amount (negative included) and
returns the `TransferRequest` embedding its arguments verbatim: the
defaults are payload `'0x'` and gas budget `0`. -/
theorem buildCCIPMessage_total_amended :
    ∀ (receiver tokenAddress : String) (amount : Int) (data : String)
      (gasLimit : Int),
      buildCCIPMessage receiver tokenAddress amount data gasLimit =
        { receiver := receiver, data := data
          tokenAmounts := [{ token := tokenAddress, amount := amount }]
          extraArgs := { gasLimit := gasLimit } } ∧
      buildCCIPMessage receiver tokenAddress amount =
        buildCCIPMessage receiver tokenAddress amount "0x" 0 :=
  fun _ _ _ _ _ => ⟨rfl, rfl⟩

/-! ### Auxiliary lemmas about the history log -/

lemma updateFirstById_none_iff (input : NewTransaction) (now : Nat)
    (txs : List StoredTransaction) :
    updateFirstById input now txs = none ↔
      countById txs input.messageId = 0 := by
  induction txs with
  | nil => simp [updateFirstById, countById]
  | cons t ts ih =>
    simp only [updateFirstById, countById, List.countP_cons]
    by_cases h : t.messageId = input.messageId
    · simp [h]
    · simp only [h, if_neg, Option.map_eq_none', decide_eq_true_eq]
      simpa [h, countById] using ih

lemma updateFirstById_some_count (input : NewTransaction) (now : Nat)
    (txs l : List StoredTransaction)
    (h : updateFirstById input now txs = some l) :
    countById l input.messageId = countById txs input.messageId := by
  induction txs generalizing l with
  | nil => simp [updateFirstById] at h
  | cons t ts ih =>
    by_cases hm : t.messageId = input.messageId
    · simp only [updateFirstById, if_pos hm, Option.some.injEq] at h
      subst h
      simp [countById, List.countP_cons, mergeTransaction, hm]
    · simp only [updateFirstById, if_neg hm, Option.map_eq_some'] at h
      obtain ⟨l', hl', rfl⟩ := h
      have := ih l' hl'
      simp only [countById, List.countP_cons] at this ⊢
      simp [hm, this]

lemma updateFirstById_some_length (input : NewTransaction) (now : Nat)
    (txs l : List StoredTransaction)
    (h : updateFirstById input now txs = some l) :
    l.length = txs.length := by
  induction txs generalizing l with
  | nil => simp [updateFirstById] at h
  | cons t ts ih =>
    by_cases hm : t.messageId = input.messageId
    · simp only [updateFirstById, if_pos hm, Option.some.injEq] at h
      subst h
      simp
    · simp only [updateFirstById, if_neg hm, Option.map_eq_some'] at h
      obtain ⟨l', hl', rfl⟩ := h
      simp [ih l' hl']

@[simp] lemma newStoredTransaction_messageId (input : NewTransaction)
    (now : Nat) :
    (newStoredTransaction input now).messageId = input.messageId := rfl

lemma countById_cons (a : StoredTransaction) (l : List StoredTransaction)
    (m : String) :
    countById (a :: l) m =
      countById l m + (if a.messageId = m then 1 else 0) := by
  simp [countById, List.countP_cons]

lemma countById_take_le (n : Nat) (l : List StoredTransaction) (m : String) :
    countById (l.take n) m ≤ countById l m :=
  (List.take_sublist n l).countP_le _

lemma addTransaction_eq_some (input : NewTransaction) (now : Nat)
    (txs l : List StoredTransaction)
    (h : updateFirstById input now txs = some l) :
    addTransaction input now txs = saveTransactions l := by
  simp only [addTransaction, h]

lemma addTransaction_eq_none (input : NewTransaction) (now : Nat)
    (txs : List StoredTransaction)
    (h : updateFirstById input now txs = none) :
    addTransaction input now txs =
      saveTransactions (newStoredTransaction input now :: txs) := by
  simp only [addTransaction, h]

lemma addTransaction_count_one (input : NewTransaction) (now : Nat)
    (txs : List StoredTransaction)
    (hlen : txs.length ≤ MAX_TRANSACTIONS)
    (hcount : countById txs input.messageId ≤ 1) :
    countById (addTransaction input now txs) input.messageId = 1 ∧
    (addTransaction input now txs).length ≤ MAX_TRANSACTIONS := by
  cases hupd : updateFirstById input now txs with
  | none =>
    have hzero : countById txs input.messageId = 0 :=
      (updateFirstById_none_iff input now txs).mp hupd
    have heq := addTransaction_eq_none input now txs hupd
    have h49 : saveTransactions (newStoredTransaction input now :: txs) =
        newStoredTransaction input now :: txs.take 49 := by
      have : MAX_TRANSACTIONS = 49 + 1 := rfl
      simp [saveTransactions, this, List.take_succ_cons]
    rw [heq, h49]
    constructor
    · rw [countById_cons]
      have h1 := countById_take_le 49 txs input.messageId
      have hm : (newStoredTransaction input now).messageId =
          input.messageId := rfl
      rw [hm, if_pos rfl]
      omega
    · simp only [List.length_cons, List.length_take]
      have : MAX_TRANSACTIONS = 49 + 1 := rfl
      omega
  | some l =>
    have hcnt : countById l input.messageId = countById txs input.messageId :=
      updateFirstById_some_count input now txs l hupd
    have hlenl : l.length = txs.length :=
      updateFirstById_some_length input now txs l hupd
    have heq := addTransaction_eq_some input now txs l hupd
    have htake : saveTransactions l = l :=
      List.take_of_length_le (by omega)
    have hone : countById txs input.messageId = 1 := by
      have hne : countById txs input.messageId ≠ 0 := by
        intro h0
        rw [← updateFirstById_none_iff input now txs] at h0
        rw [hupd] at h0
        exact Option.noConfusion h0
      omega
    rw [heq, htake]
    exact ⟨by omega, by omega⟩

/-- C7: the add-or-update-by-identifier operation is idempotent and
preserves uniqueness. Starting from a persisted list respecting the size
bound and holding at most one record with the input's message id, calling
`addTransaction` twice with the same input leaves exactly one stored record
with that id, and the second call updates in place: it does not change the
number of stored records. -/
theorem addTransaction_idempotent_unique (input : NewTransaction)
    (now1 now2 : Nat) (txs : List StoredTransaction)
    (hlen : txs.length ≤ MAX_TRANSACTIONS)
    (hcount : countById txs input.messageId ≤ 1) :
    countById (addTransaction input now2 (addTransaction input now1 txs))
        input.messageId = 1 ∧
    (addTransaction input now2 (addTransaction input now1 txs)).length =
      (addTransaction input now1 txs).length := by
  obtain ⟨hcnt1, hlen1⟩ := addTransaction_count_one input now1 txs hlen hcount
  obtain ⟨hcnt2, _⟩ :=
    addTransaction_count_one input now2 (addTransaction input now1 txs) hlen1
      (by omega)
  refine ⟨hcnt2, ?_⟩
  cases hupd : updateFirstById input now2 (addTransaction input now1 txs) with
  | none =>
    have hzero := (updateFirstById_none_iff input now2 _).mp hupd
    omega
  | some l =>
    have hlenl : l.length = (addTransaction input now1 txs).length :=
      updateFirstById_some_length input now2 _ l hupd
    have heq := addTransaction_eq_some input now2 _ l hupd
    have htake : saveTransactions l = l := List.take_of_length_le (by omega)
    rw [heq, htake, hlenl]

/-- Witness for C7: two identical calls on an initially empty history leave
exactly one record. -/
theorem addTransaction_idempotent_witness :
    countById
        (addTransaction
          { messageId := "0xmsg1", txHash := "0xtx1", destTxHash := none
            sourceNetwork := "ethereum-sepolia", destNetwork := "base-sepolia"
            amount := "10", tokenSymbol := "CCIP-BnM", receiver := "0xr"
            sender := "0xs", status := .pending } 2000
          (addTransaction
            { messageId := "0xmsg1", txHash := "0xtx1", destTxHash := none
              sourceNetwork := "ethereum-sepolia", destNetwork := "base-sepolia"
              amount := "10", tokenSymbol := "CCIP-BnM", receiver := "0xr"
              sender := "0xs", status := .pending } 1000 []))
        "0xmsg1" = 1 := by
  have h := addTransaction_idempotent_unique
    { messageId := "0xmsg1", txHash := "0xtx1", destTxHash := none
      sourceNetwork := "ethereum-sepolia", destNetwork := "base-sepolia"
      amount := "10", tokenSymbol := "CCIP-BnM", receiver := "0xr"
      sender := "0xs", status := .pending } 1000 2000 []
    (by decide) (by decide)
  exact h.1

lemma updateStatusFirstById_eq_none (messageId : String)
    (status : TransactionStatus) (destTxHash : Option String) (now : Nat)
    (txs : List StoredTransaction)
    (h : ∀ t ∈ txs, t.messageId ≠ messageId) :
    updateStatusFirstById messageId status destTxHash now txs = none := by
  induction txs with
  | nil => rfl
  | cons t ts ih =>
    have ht : t.messageId ≠ messageId := h t (by simp)
    simp only [updateStatusFirstById, if_neg ht,
      ih (fun u hu => h u (by simp [hu])), Option.map_none']

/-- C10: calling `updateTransactionStatus` with a message identifier for
which no stored record exists leaves the persisted transaction list
completely unchanged, and no write to storage occurs (the `saveTransactions`
call is never reached, modelled by the write-tracking function answering
`none`). -/
theorem updateStatus_missing_id_noop (messageId : String)
    (status : TransactionStatus) (destTxHash : Option String) (now : Nat)
    (txs : List StoredTransaction)
    (h : getTransaction messageId txs = none) :
    updateTransactionStatusWrites messageId status destTxHash now txs =
        none ∧
    updateTransactionStatus messageId status destTxHash now txs = txs := by
  have hall : ∀ t ∈ txs, t.messageId ≠ messageId := by
    intro t ht
    have := List.find?_eq_none.mp h t ht
    simpa using this
  have hnone :=
    updateStatusFirstById_eq_none messageId status destTxHash now txs hall
  constructor
  · simp [updateTransactionStatusWrites, hnone]
  · simp [updateTransactionStatus, updateTransactionStatusWrites, hnone]

/-- Witness for C10: a one-record store queried with a different id. -/
theorem updateStatus_missing_id_witness :
    updateTransactionStatusWrites "0xabsent" .success (some "0xdest") 99
        [{ messageId := "0xmsg1", txHash := "0xtx1", destTxHash := none
           sourceNetwork := "ethereum-sepolia", destNetwork := "solana-devnet"
           amount := "7", tokenSymbol := "CCIP-BnM", receiver := "0xr"
           sender := "0xs", status := .pending, timestamp := 1
           lastChecked := 1 }] = none ∧
    updateTransactionStatus "0xabsent" .success (some "0xdest") 99
        [{ messageId := "0xmsg1", txHash := "0xtx1", destTxHash := none
           sourceNetwork := "ethereum-sepolia", destNetwork := "solana-devnet"
           amount := "7", tokenSymbol := "CCIP-BnM", receiver := "0xr"
           sender := "0xs", status := .pending, timestamp := 1
           lastChecked := 1 }] =
      [{ messageId := "0xmsg1", txHash := "0xtx1", destTxHash := none
         sourceNetwork := "ethereum-sepolia", destNetwork := "solana-devnet"
         amount := "7", tokenSymbol := "CCIP-BnM", receiver := "0xr"
         sender := "0xs", status := .pending, timestamp := 1
         lastChecked := 1 }] :=
  updateStatus_missing_id_noop "0xabsent" .success (some "0xdest") 99 _
    (by decide)

/-! ### Auxiliary lemmas about the reconciliation pass -/

lemma updateStatusFirstById_some_length (messageId : String)
    (status : TransactionStatus) (destTxHash : Option String) (now : Nat)
    (txs l : List StoredTransaction)
    (h : updateStatusFirstById messageId status destTxHash now txs = some l) :
    l.length = txs.length := by
  induction txs generalizing l with
  | nil => simp [updateStatusFirstById] at h
  | cons t ts ih =>
    by_cases hm : t.messageId = messageId
    · simp only [updateStatusFirstById, if_pos hm, Option.some.injEq] at h
      subst h
      simp
    · simp only [updateStatusFirstById, if_neg hm, Option.map_eq_some'] at h
      obtain ⟨l', hl', rfl⟩ := h
      simp [ih l' hl']

lemma updateStatusFirstById_find_other (messageId : String)
    (status : TransactionStatus) (destTxHash : Option String) (now : Nat)
    (txs l : List StoredTransaction) (m : String) (hne : m ≠ messageId)
    (h : updateStatusFirstById messageId status destTxHash now txs = some l) :
    getTransaction m l = getTransaction m txs := by
  induction txs generalizing l with
  | nil => simp [updateStatusFirstById] at h
  | cons t ts ih =>
    by_cases hm : t.messageId = messageId
    · simp only [updateStatusFirstById, if_pos hm, Option.some.injEq] at h
      subst h
      have h1 : ((applyStatusUpdate t status destTxHash now).messageId = m) =
          (t.messageId = m) := by
        simp [applyStatusUpdate]
      have h2 : ¬ t.messageId = m := fun hc => hne (hc ▸ hm)
      simp [getTransaction, List.find?_cons, h1, h2]
    · simp only [updateStatusFirstById, if_neg hm, Option.map_eq_some'] at h
      obtain ⟨l', hl', rfl⟩ := h
      by_cases hd : t.messageId = m
      · simp [getTransaction, List.find?_cons, hd]
      · simp only [getTransaction, List.find?_cons] at ih ⊢
        simp only [hd, decide_False]
        exact ih l' hl'

lemma updateStatusFirstById_find_self (messageId : String)
    (status : TransactionStatus) (destTxHash : Option String) (now : Nat)
    (txs l : List StoredTransaction) (u : StoredTransaction)
    (hfound : getTransaction messageId txs = some u)
    (h : updateStatusFirstById messageId status destTxHash now txs = some l) :
    getTransaction messageId l =
      some (applyStatusUpdate u status destTxHash now) := by
  induction txs generalizing l with
  | nil => simp [updateStatusFirstById] at h
  | cons t ts ih =>
    by_cases hm : t.messageId = messageId
    · simp only [updateStatusFirstById, if_pos hm, Option.some.injEq] at h
      subst h
      have hu : u = t := by
        simp [getTransaction, List.find?_cons, hm] at hfound
        exact hfound.symm
      subst hu
      have h1 : (applyStatusUpdate u status destTxHash now).messageId =
          messageId := hm
      simp [getTransaction, List.find?_cons, h1]
    · simp only [updateStatusFirstById, if_neg hm, Option.map_eq_some'] at h
      obtain ⟨l', hl', rfl⟩ := h
      simp only [getTransaction, List.find?_cons, hm, decide_False] at hfound ⊢
      exact ih l' hfound hl'

lemma updateStatusFirstById_isSome_of_find (messageId : String)
    (status : TransactionStatus) (destTxHash : Option String) (now : Nat)
    (txs : List StoredTransaction) (u : StoredTransaction)
    (hfound : getTransaction messageId txs = some u) :
    ∃ l, updateStatusFirstById messageId status destTxHash now txs = some l := by
  induction txs with
  | nil => simp [getTransaction] at hfound
  | cons t ts ih =>
    by_cases hm : t.messageId = messageId
    · refine ⟨applyStatusUpdate t status destTxHash now :: ts, ?_⟩
      simp [updateStatusFirstById, hm]
    · simp only [getTransaction, List.find?_cons, hm, decide_False] at hfound
      obtain ⟨l', hl'⟩ := ih hfound
      exact ⟨t :: l', by simp [updateStatusFirstById, hm, hl']⟩

lemma updateTransactionStatus_length (messageId : String)
    (status : TransactionStatus) (destTxHash : Option String) (now : Nat)
    (txs : List StoredTransaction) (hlen : txs.length ≤ MAX_TRANSACTIONS) :
    (updateTransactionStatus messageId status destTxHash now txs).length =
      txs.length := by
  unfold updateTransactionStatus updateTransactionStatusWrites
  cases hupd : updateStatusFirstById messageId status destTxHash now txs with
  | none => rfl
  | some l =>
    have hl := updateStatusFirstById_some_length messageId status destTxHash
      now txs l hupd
    have : saveTransactions l = l := List.take_of_length_le (by omega)
    simp [this, hl]

lemma updateTransactionStatus_find_other (messageId : String)
    (status : TransactionStatus) (destTxHash : Option String) (now : Nat)
    (txs : List StoredTransaction) (m : String)
    (hlen : txs.length ≤ MAX_TRANSACTIONS) (hne : m ≠ messageId) :
    getTransaction m
        (updateTransactionStatus messageId status destTxHash now txs) =
      getTransaction m txs := by
  unfold updateTransactionStatus updateTransactionStatusWrites
  cases hupd : updateStatusFirstById messageId status destTxHash now txs with
  | none => rfl
  | some l =>
    have hl := updateStatusFirstById_some_length messageId status destTxHash
      now txs l hupd
    have htake : saveTransactions l = l := List.take_of_length_le (by omega)
    simp only [Option.map_some', Option.getD_some, htake]
    exact updateStatusFirstById_find_other messageId status destTxHash now
      txs l m hne hupd

lemma updateTransactionStatus_find_self (messageId : String)
    (status : TransactionStatus) (destTxHash : Option String) (now : Nat)
    (txs : List StoredTransaction) (u : StoredTransaction)
    (hlen : txs.length ≤ MAX_TRANSACTIONS)
    (hfound : getTransaction messageId txs = some u) :
    getTransaction messageId
        (updateTransactionStatus messageId status destTxHash now txs) =
      some (applyStatusUpdate u status destTxHash now) := by
  obtain ⟨l, hupd⟩ := updateStatusFirstById_isSome_of_find messageId status
    destTxHash now txs u hfound
  have hl := updateStatusFirstById_some_length messageId status destTxHash
    now txs l hupd
  have htake : saveTransactions l = l := List.take_of_length_le (by omega)
  unfold updateTransactionStatus updateTransactionStatusWrites
  simp only [hupd, Option.map_some', Option.getD_some, htake]
  exact updateStatusFirstById_find_self messageId status destTxHash now
    txs l u hfound hupd

lemma pollOne_length (env : String → FetchOutcome) (now : Nat)
    (storage : List StoredTransaction) (tx : StoredTransaction)
    (hlen : storage.length ≤ MAX_TRANSACTIONS) :
    (pollOne env now storage tx).length = storage.length := by
  unfold pollOne
  cases env tx.messageId with
  | noChain => rfl
  | fetchError => rfl
  | ok status receiptTransactionHash =>
    by_cases hs : status = .Success
    · simp only [hs, if_pos rfl]
      exact updateTransactionStatus_length _ _ _ _ _ hlen
    · by_cases hf : status = .Failed
      · simp only [if_neg hs, hf, if_pos rfl]
        exact updateTransactionStatus_length _ _ _ _ _ hlen
      · simp [if_neg hs, if_neg hf]

lemma pollOne_find_other (env : String → FetchOutcome) (now : Nat)
    (storage : List StoredTransaction) (tx : StoredTransaction) (m : String)
    (hlen : storage.length ≤ MAX_TRANSACTIONS) (hne : m ≠ tx.messageId) :
    getTransaction m (pollOne env now storage tx) = getTransaction m storage := by
  unfold pollOne
  cases env tx.messageId with
  | noChain => rfl
  | fetchError => rfl
  | ok status receiptTransactionHash =>
    by_cases hs : status = .Success
    · simp only [hs, if_pos rfl]
      exact updateTransactionStatus_find_other _ _ _ _ _ _ hlen hne
    · by_cases hf : status = .Failed
      · simp only [if_neg hs, hf, if_pos rfl]
        exact updateTransactionStatus_find_other _ _ _ _ _ _ hlen hne
      · simp [if_neg hs, if_neg hf]

lemma foldl_pollOne_length (env : String → FetchOutcome) (now : Nat)
    (P : List StoredTransaction) :
    ∀ storage : List StoredTransaction,
      storage.length ≤ MAX_TRANSACTIONS →
      (P.foldl (pollOne env now) storage).length = storage.length := by
  induction P with
  | nil => intro s _; rfl
  | cons t ts ih =>
    intro s hlen
    have h1 := pollOne_length env now s t hlen
    simp only [List.foldl_cons]
    rw [ih (pollOne env now s t) (by omega), h1]

lemma foldl_pollOne_find_other (env : String → FetchOutcome) (now : Nat)
    (m : String) (P : List StoredTransaction) :
    ∀ storage : List StoredTransaction,
      storage.length ≤ MAX_TRANSACTIONS →
      (∀ t ∈ P, t.messageId ≠ m) →
      getTransaction m (P.foldl (pollOne env now) storage) =
        getTransaction m storage := by
  induction P with
  | nil => intro s _ _; rfl
  | cons t ts ih =>
    intro s hlen hP
    have hne : m ≠ t.messageId := fun hc => hP t (by simp) hc.symm
    have h1 := pollOne_find_other env now s t m hlen hne
    have h2 := pollOne_length env now s t hlen
    simp only [List.foldl_cons]
    rw [ih (pollOne env now s t) (by omega)
      (fun u hu => hP u (by simp [hu])), h1]

lemma simplified_terminal_iff (st : MessageStatus) :
    (mapToSimplifiedState (mapToDetailedStatus st) = .SUCCESS ↔
      st = .Success) ∧
    (mapToSimplifiedState (mapToDetailedStatus st) = .FAILED ↔
      st = .Failed) := by
  cases st <;> simp [mapToDetailedStatus, mapToSimplifiedState]

/-- C8: in a background reconciliation pass over the pending history
records, the record for a pending transaction is rewritten to `success` or
`failed` (with the fetched destination transaction hash, falling back to
the stored one when absent) exactly when its single status point-query
resolves to a terminal simplified state; a record whose query returns a
non-terminal status is left untouched, a record whose fetch errors (or
whose chain is unavailable) is left untouched, and an error fetching one
entry's status leaves the loop step a no-op rather than aborting the pass
(so the remaining entries are still reconciled). -/
theorem pollPending_reconciliation (env : String → FetchOutcome) (now : Nat)
    (storage : List StoredTransaction) (tx : StoredTransaction)
    (hlen : storage.length ≤ MAX_TRANSACTIONS)
    (hnodup : (storage.map (·.messageId)).Nodup)
    (hmem : tx ∈ storage) (hpending : tx.status = .pending) :
    (∀ st h, env tx.messageId = .ok st h →
        mapToSimplifiedState (mapToDetailedStatus st) = .SUCCESS →
        getTransaction tx.messageId (pollPendingTransactions env now storage) =
          some (applyStatusUpdate tx .success h now)) ∧
    (∀ st h, env tx.messageId = .ok st h →
        mapToSimplifiedState (mapToDetailedStatus st) = .FAILED →
        getTransaction tx.messageId (pollPendingTransactions env now storage) =
          some (applyStatusUpdate tx .failed h now)) ∧
    (∀ st h, env tx.messageId = .ok st h →
        mapToSimplifiedState (mapToDetailedStatus st) ≠ .SUCCESS →
        mapToSimplifiedState (mapToDetailedStatus st) ≠ .FAILED →
        getTransaction tx.messageId (pollPendingTransactions env now storage) =
          some tx) ∧
    ((env tx.messageId = .fetchError ∨ env tx.messageId = .noChain) →
        getTransaction tx.messageId (pollPendingTransactions env now storage) =
          some tx) ∧
    (∀ (s : List StoredTransaction) (t : StoredTransaction),
        env t.messageId = .fetchError → pollOne env now s t = s) := by
  have hinj := List.inj_on_of_nodup_map hnodup
  have hndstorage : storage.Nodup := List.Nodup.of_map _ hnodup
  have htxpend : tx ∈ getPendingTransactions storage := by
    simp only [getPendingTransactions, List.mem_filter]
    exact ⟨hmem, by simp [hpending]⟩
  have hndpend : (getPendingTransactions storage).Nodup :=
    hndstorage.filter _
  obtain ⟨P1, P2, hsplit⟩ := List.append_of_mem htxpend
  have hndsplit := hsplit ▸ hndpend
  have htx1 : tx ∉ P1 := by
    have := (List.nodup_append.mp hndsplit).2.2
    intro hc
    exact (List.disjoint_left.mp this hc) (by simp)
  have htx2 : tx ∉ P2 := by
    have := ((List.nodup_append.mp hndsplit).2.1)
    exact (List.nodup_cons.mp this).1
  have hmemP : ∀ u, u ∈ P1 ∨ u ∈ P2 → u ∈ storage := by
    intro u hu
    have : u ∈ getPendingTransactions storage := by
      rw [hsplit]
      rcases hu with h | h
      · exact List.mem_append_left _ h
      · exact List.mem_append_right _ (List.mem_cons_of_mem _ h)
    exact (List.mem_filter.mp this).1
  have hP1 : ∀ u ∈ P1, u.messageId ≠ tx.messageId := by
    intro u hu hc
    exact htx1 (hinj (hmemP u (Or.inl hu)) hmem hc ▸ hu)
  have hP2 : ∀ u ∈ P2, u.messageId ≠ tx.messageId := by
    intro u hu hc
    exact htx2 (hinj (hmemP u (Or.inr hu)) hmem hc ▸ hu)
  have hfound : getTransaction tx.messageId storage = some tx := by
    cases hf : getTransaction tx.messageId storage with
    | none =>
      exfalso
      have := List.find?_eq_none.mp hf tx hmem
      simp at this
    | some u =>
      have hu1 : u ∈ storage := List.mem_of_find?_eq_some hf
      have hu2 : u.messageId = tx.messageId := by
        have := List.find?_some hf
        simpa using this
      rw [hinj hu1 hmem hu2]
  have hfold :
      pollPendingTransactions env now storage =
        P2.foldl (pollOne env now)
          (pollOne env now (P1.foldl (pollOne env now) storage) tx) := by
    rw [pollPendingTransactions, hsplit, List.foldl_append, List.foldl_cons]
  have hs1len : (P1.foldl (pollOne env now) storage).length =
      storage.length :=
    foldl_pollOne_length env now P1 storage hlen
  have hs1find :
      getTransaction tx.messageId (P1.foldl (pollOne env now) storage) =
        some tx := by
    rw [foldl_pollOne_find_other env now tx.messageId P1 storage hlen hP1]
    exact hfound
  have hfinish :
      ∀ s2 : List StoredTransaction, s2.length ≤ MAX_TRANSACTIONS →
        getTransaction tx.messageId (P2.foldl (pollOne env now) s2) =
          getTransaction tx.messageId s2 :=
    fun s2 h2 => foldl_pollOne_find_other env now tx.messageId P2 s2 h2 hP2
  have herrstep :
      ∀ (s : List StoredTransaction) (t : StoredTransaction),
        env t.messageId = .fetchError → pollOne env now s t = s := by
    intro s t he
    unfold pollOne
    rw [he]
  refine ⟨?_, ?_, ?_, ?_, herrstep⟩
  · intro st h henv hsimp
    have hst : st = .Success := (simplified_terminal_iff st).1.mp hsimp
    subst hst
    have hstep :
        pollOne env now (P1.foldl (pollOne env now) storage) tx =
          updateTransactionStatus tx.messageId .success h now
            (P1.foldl (pollOne env now) storage) := by
      unfold pollOne
      rw [henv]
      simp
    have hs2len : (updateTransactionStatus tx.messageId .success h now
        (P1.foldl (pollOne env now) storage)).length ≤ MAX_TRANSACTIONS := by
      rw [updateTransactionStatus_length _ _ _ _ _ (by omega)]
      omega
    rw [hfold, hstep, hfinish _ hs2len]
    exact updateTransactionStatus_find_self _ _ _ _ _ tx (by omega) hs1find
  · intro st h henv hsimp
    have hst : st = .Failed := (simplified_terminal_iff st).2.mp hsimp
    subst hst
    have hstep :
        pollOne env now (P1.foldl (pollOne env now) storage) tx =
          updateTransactionStatus tx.messageId .failed h now
            (P1.foldl (pollOne env now) storage) := by
      unfold pollOne
      rw [henv]
      simp
    have hs2len : (updateTransactionStatus tx.messageId .failed h now
        (P1.foldl (pollOne env now) storage)).length ≤ MAX_TRANSACTIONS := by
      rw [updateTransactionStatus_length _ _ _ _ _ (by omega)]
      omega
    rw [hfold, hstep, hfinish _ hs2len]
    exact updateTransactionStatus_find_self _ _ _ _ _ tx (by omega) hs1find
  · intro st h henv hns hnf
    have hst : st ≠ .Success := fun hc =>
      hns ((simplified_terminal_iff st).1.mpr hc)
    have hft : st ≠ .Failed := fun hc =>
      hnf ((simplified_terminal_iff st).2.mpr hc)
    have hstep :
        pollOne env now (P1.foldl (pollOne env now) storage) tx =
          P1.foldl (pollOne env now) storage := by
      unfold pollOne
      rw [henv]
      simp [hst, hft]
    rw [hfold, hstep, hfinish _ (by omega)]
    exact hs1find
  · intro henv
    have hstep :
        pollOne env now (P1.foldl (pollOne env now) storage) tx =
          P1.foldl (pollOne env now) storage := by
      unfold pollOne
      rcases henv with he | he <;> rw [he]
    rw [hfold, hstep, hfinish _ (by omega)]
    exact hs1find

/-- Witness for C8: a one-record pending store whose query answers
`Success` ends the pass with the record rewritten to `success` carrying the
fetched destination hash. -/
theorem pollPending_reconciliation_witness :
    getTransaction sampleStoredTx.messageId
        (pollPendingTransactions sampleEnv 9 [sampleStoredTx]) =
      some (applyStatusUpdate sampleStoredTx .success (some "0xdest") 9) :=
  (pollPending_reconciliation sampleEnv 9 [sampleStoredTx] sampleStoredTx
    (by decide) (by decide) (by decide) rfl).1 .Success (some "0xdest")
    rfl rfl

lemma round_le_round {x y : ℚ} (h : x ≤ y) : round x ≤ round y := by
  rw [round_eq, round_eq]
  exact Int.floor_le_floor (by linarith)

/-- C9 counterexample: the claim states the reported percentage always lies
within [0, 100] (even for inconsistent upstream data) and reports 100
whenever tokens equals capacity. Both parts fail on the code: an enabled
bucket with `tokens = 2000`, `capacity = 1000` (and 0 decimals) reports
200, because the source clamps only the progress-bar width, not the
reported percentage; and an enabled bucket with `tokens = capacity = 1` at
18 decimals reports 0, because the whole-unit quotients are both 0. -/
theorem formatRateLimitBucket_unclamped_counterexample :
    formatRateLimitBucket
        (some { tokens := 2000, capacity := 1000, rate := 10
                isEnabled := true }) 0 =
      some { current := 2000, max := 1000, ratePerSecond := 10
             percentage := 200 } ∧
    formatRateLimitBucket
        (some { tokens := 1, capacity := 1, rate := 0
                isEnabled := true }) 18 =
      some { current := 0, max := 0, ratePerSecond := 0
             percentage := 0 } := by
  constructor
  · have h1 : (2000 : Int).tdiv ((10 : Int) ^ 0) = 2000 := by decide
    have h2 : (1000 : Int).tdiv ((10 : Int) ^ 0) = 1000 := by decide
    have h3 : (10 : Int).tdiv ((10 : Int) ^ 0) = 10 := by decide
    have h4 : round (((2000 : Int) : ℚ) / ((1000 : Int) : ℚ) * 100) =
        200 := by
      norm_num [round_eq]
    simp only [formatRateLimitBucket, Bool.not_true, Bool.false_eq_true,
      if_false, h1, h2, h3, h4, if_pos (by norm_num : (0 : Int) < 1000)]
  · have h1 : (1 : Int).tdiv ((10 : Int) ^ 18) = 0 := by decide
    have h2 : (0 : Int).tdiv ((10 : Int) ^ 18) = 0 := by decide
    simp only [formatRateLimitBucket, Bool.not_true, Bool.false_eq_true,
      if_false, h1, h2, lt_irrefl, if_neg (lt_irrefl (0 : Int))]

/-- C9 (amended): for every enabled rate-limit bucket, the computed
percentage reports 100 when tokens equals capacity provided the whole-unit
capacity quotient is positive, reports 0 when tokens is 0, and lies within
[0, 100] whenever 0 ≤ tokens ≤ capacity; when tokens exceeds capacity the
reported percentage is not clamped and can exceed 100 (only the
progress-bar width is clamped). -/
theorem formatRateLimitBucket_amended (b : RateLimitBucket) (decimals : Nat)
    (f : FormattedRateLimit) (henabled : b.isEnabled = true)
    (hf : formatRateLimitBucket (some b) decimals = some f) :
    (b.tokens = b.capacity → 0 < f.max → f.percentage = 100) ∧
    (b.tokens = 0 → f.percentage = 0) ∧
    (0 ≤ b.tokens → b.tokens ≤ b.capacity →
      0 ≤ f.percentage ∧ f.percentage ≤ 100) := by
  have hdiv : (0 : Int) < (10 : Int) ^ decimals := by positivity
  simp only [formatRateLimitBucket, henabled, Bool.not_true,
    Bool.false_eq_true, if_false, Option.some.injEq] at hf
  subst hf
  refine ⟨?_, ?_, ?_⟩
  · intro heq hpos
    simp only at hpos ⊢
    rw [heq] at *
    rw [if_pos hpos]
    have hne : ((b.capacity.tdiv ((10 : Int) ^ decimals) : Int) : ℚ) ≠ 0 := by
      exact_mod_cast hpos.ne'
    rw [div_self hne, one_mul]
    norm_num [round_eq]
  · intro heq
    simp only [heq, Int.zero_tdiv]
    split
    · norm_num [round_eq]
    · rfl
  · intro h0 hle
    simp only
    split
    · rename_i hpos
      constructor
      · have : (0 : ℚ) ≤
            ((b.tokens.tdiv ((10 : Int) ^ decimals) : Int) : ℚ) /
              ((b.capacity.tdiv ((10 : Int) ^ decimals) : Int) : ℚ) * 100 := by
          have hnum : (0 : Int) ≤ b.tokens.tdiv ((10 : Int) ^ decimals) :=
            Int.tdiv_nonneg h0 hdiv.le
          have hden : (0 : Int) ≤ b.capacity.tdiv ((10 : Int) ^ decimals) :=
            hpos.le
          positivity
        calc (0 : Int) = round (0 : ℚ) := round_zero.symm
          _ ≤ _ := round_le_round this
      · have htd : b.tokens.tdiv ((10 : Int) ^ decimals) ≤
            b.capacity.tdiv ((10 : Int) ^ decimals) := by
          rw [Int.tdiv_eq_ediv h0 hdiv.le,
            Int.tdiv_eq_ediv (le_trans h0 hle) hdiv.le]
          exact Int.ediv_le_ediv hdiv hle
        have hq : ((b.tokens.tdiv ((10 : Int) ^ decimals) : Int) : ℚ) /
              ((b.capacity.tdiv ((10 : Int) ^ decimals) : Int) : ℚ) * 100 ≤
            100 := by
          have hden : (0 : ℚ) <
              ((b.capacity.tdiv ((10 : Int) ^ decimals) : Int) : ℚ) := by
            exact_mod_cast hpos
          have hnum : ((b.tokens.tdiv ((10 : Int) ^ decimals) : Int) : ℚ) ≤
              ((b.capacity.tdiv ((10 : Int) ^ decimals) : Int) : ℚ) := by
            exact_mod_cast htd
          have := (div_le_one hden).mpr hnum
          nlinarith
        calc round (((b.tokens.tdiv ((10 : Int) ^ decimals) : Int) : ℚ) /
              ((b.capacity.tdiv ((10 : Int) ^ decimals) : Int) : ℚ) * 100) ≤
            round ((100 : ℚ)) := round_le_round hq
          _ = 100 := by norm_num [round_eq]
    · exact ⟨le_refl 0, by norm_num⟩

/-- Witness for C9 (amended) at a concrete full bucket: 1000 of 1000 tokens
at 0 decimals reports exactly 100, which lies within [0, 100]. -/
theorem formatRateLimitBucket_amended_witness :
    formatRateLimitBucket
        (some { tokens := 1000, capacity := 1000, rate := 10
                isEnabled := true }) 0 =
      some { current := 1000, max := 1000, ratePerSecond := 10
             percentage := 100 } ∧
    (0 : Int) ≤ 100 ∧ (100 : Int) ≤ 100 := by
  have h1 : (1000 : Int).tdiv ((10 : Int) ^ 0) = 1000 := by decide
  have h2 : (10 : Int).tdiv ((10 : Int) ^ 0) = 10 := by decide
  have h4 : round (((1000 : Int) : ℚ) / ((1000 : Int) : ℚ) * 100) =
      100 := by
    norm_num [round_eq]
  have hf : formatRateLimitBucket
      (some { tokens := 1000, capacity := 1000, rate := 10
              isEnabled := true }) 0 =
      some { current := 1000, max := 1000, ratePerSecond := 10
             percentage := 100 } := by
    simp only [formatRateLimitBucket, Bool.not_true, Bool.false_eq_true,
      if_false, h1, h2, h4, if_pos (by norm_num : (0 : Int) < 1000)]
  refine ⟨hf, ?_⟩
  have h := (formatRateLimitBucket_amended
    { tokens := 1000, capacity := 1000, rate := 10, isEnabled := true } 0
    { current := 1000, max := 1000, ratePerSecond := 10, percentage := 100 }
    rfl hf).2.2 (by norm_num) (by norm_num)
  exact h

/-- C3: whenever the pre-flight read-only simulation of the send
transaction reverts with revert data decodable to a known protocol error
name (one with a mapped user-facing sentence), the send transaction is
never broadcast, and the error surfaced to the caller is exactly that
mapped sentence rather than a generic failure message. -/
theorem preflight_revert_blocks_send (env : EVMEnv) (e : SimError)
    (d : DecodedRevert) (sentence : String)
    (hne : env.transactions ≠ [])
    (hsim : env.simOutcome = some e)
    (hdec : e.decoded = some d)
    (hknown : CCIP_ERROR_MESSAGES d.errorName = some sentence) :
    (∀ tx, EVMAction.sendBroadcast tx ∉ (executeEVMTransfer env).1) ∧
    (executeEVMTransfer env).2 = .error sentence := by
  obtain ⟨sendTx, hlast⟩ :=
    Option.isSome_iff_exists.mp (List.getLast?_isSome.mpr hne)
  have hparse : parseEVMError e =
      some (d.errorName, sentence) := by
    simp [parseEVMError, hdec, hknown]
  constructor
  · intro tx hmem
    simp only [executeEVMTransfer, hlast, hsim, hparse] at hmem
    obtain ⟨a, _, hcontra⟩ := List.mem_map.mp hmem
    exact EVMAction.noConfusion hcontra
  · simp only [executeEVMTransfer, hlast, hsim, hparse]

/-- Witness for C3: a concrete environment whose simulation throws a
decodable `ChainNotAllowed` revert: the approval is the only broadcast and
the surfaced message is the mapped sentence. -/
theorem preflight_revert_witness :
    (∀ tx, EVMAction.sendBroadcast tx ∉
        (executeEVMTransfer
          { transactions := [{ dest := "0xtoken", callData := "0xapprove" },
                             { dest := "0xrouter", callData := "0xccipSend" }]
            simOutcome := some
              { decoded := some
                  { errorName := "ChainNotAllowed"
                    signature := "ChainNotAllowed(uint64 destChainSelector)" }
                message := "execution reverted" }
            sendHash := "0xsend", receipt := .success, resimOutcome := none
            messageIds := ["0xmsg"] }).1) ∧
    (executeEVMTransfer
        { transactions := [{ dest := "0xtoken", callData := "0xapprove" },
                           { dest := "0xrouter", callData := "0xccipSend" }]
          simOutcome := some
            { decoded := some
                { errorName := "ChainNotAllowed"
                  signature := "ChainNotAllowed(uint64 destChainSelector)" }
              message := "execution reverted" }
          sendHash := "0xsend", receipt := .success, resimOutcome := none
          messageIds := ["0xmsg"] }).2 =
      .error "This route is not supported" :=
  preflight_revert_blocks_send _ _
    { errorName := "ChainNotAllowed"
      signature := "ChainNotAllowed(uint64 destChainSelector)" }
    "This route is not supported"
    (by decide) rfl rfl (by decide)

